import Mathlib

/-!
Verification development for the LLM agent orchestration core of this
repository (MiniMax agent: stream decoder, tool registry/executor,
tool-calling loop, conversation session).  The TypeScript sources are
shallowly embedded as executable Lean definitions; JavaScript runtime
values are modelled by the `Json` type below, JavaScript builtins
(`JSON.parse`, `JSON.stringify`) are modelled by explicit Lean functions,
and the external HTTP endpoint is modelled as an oracle function supplied
as a parameter.
-/

/-- Model of a JavaScript runtime value as far as the agent core
manipulates them: JSON-like data (strings, numbers, booleans, null,
arrays, objects).  Numbers are modelled as integers; no claim of the
specification depends on fractional numeric literals. -/
inductive Json where
  | null : Json
  | bool (b : Bool) : Json
  | num (n : Int) : Json
  | str (s : String) : Json
  | arr (elems : List Json) : Json
  | obj (fields : List (String × Json)) : Json

/-- Opening curly brace character (written via its code point). -/
def lbrace : Char := Char.ofNat 123

/-- Closing curly brace character (written via its code point). -/
def rbrace : Char := Char.ofNat 125

/-- Apostrophe (single quote) character, used by the executor's
tool-not-found error message. -/
def squote : Char := Char.ofNat 39

/-- Whitespace recognised by the JSON grammar. -/
def jsonWs (c : Char) : Bool :=
  c = ' ' || c = '\n' || c = '\t' || c = '\r'

/-- Skip leading JSON whitespace. -/
def skipWs : List Char → List Char
  | [] => []
  | c :: cs => if jsonWs c then skipWs cs else c :: cs

/-- Escape table of the JSON string grammar (model of the builtin parser;
the `\u` form is not modelled, no claim depends on it). -/
def escChar (c : Char) : Option Char :=
  if c = '"' ∨ c = '\\' ∨ c = '/' then some c
  else if c = 'n' then some '\n'
  else if c = 't' then some '\t'
  else if c = 'r' then some '\r'
  else if c = 'b' then some (Char.ofNat 8)
  else if c = 'f' then some (Char.ofNat 12)
  else none

/-- Parse the remainder of a JSON string literal (the opening quote has
already been consumed); returns the decoded characters and the rest of
the input. -/
def parseStringRest : List Char → Option (List Char × List Char)
  | [] => none
  | c :: cs =>
    if c = '"' then some ([], cs)
    else if c = '\\' then
      match cs with
      | [] => none
      | e :: cs2 =>
        match escChar e with
        | none => none
        | some ch =>
          match parseStringRest cs2 with
          | none => none
          | some (s, r) => some (ch :: s, r)
    else
      match parseStringRest cs with
      | none => none
      | some (s, r) => some (c :: s, r)

/-- Accumulate decimal digits into a natural number. -/
def digitsToNat : List Char → Nat → Nat
  | [], acc => acc
  | c :: cs, acc => digitsToNat cs (acc * 10 + (c.toNat - 48))

/-- Parse a JSON integer literal.  Inputs with a fractional part or an
exponent are rejected by this model (see `Json`). -/
def parseNumber (s : List Char) : Option (Json × List Char) :=
  let p := match s with
    | c :: cs => if c = '-' then (true, cs) else (false, s)
    | [] => (false, s)
  let ds := p.2.takeWhile Char.isDigit
  let rest := p.2.dropWhile Char.isDigit
  if ds.isEmpty then none
  else
    let ok : Bool := match rest with
      | c :: _ => !(c = '.' || c = 'e' || c = 'E')
      | [] => true
    if ok then
      let n : Int := Int.ofNat (digitsToNat ds 0)
      some (Json.num (if p.1 then -n else n), rest)
    else none

/-- Check that the input starts with the given literal characters. -/
def expectLit : List Char → List Char → Option (List Char)
  | [], s => some s
  | c :: cs, d :: ds => if c = d then expectLit cs ds else none
  | _ :: _, [] => none

mutual

/-- Fuel-indexed recursive-descent parser for JSON values (model of the
JavaScript builtin `JSON.parse`). -/
def parseVal : Nat → List Char → Option (Json × List Char)
  | 0, _ => none
  | fuel + 1, s =>
    match skipWs s with
    | [] => none
    | c :: rest =>
      if c = lbrace then
        match skipWs rest with
        | c2 :: rest2 =>
          if c2 = rbrace then some (Json.obj [], rest2)
          else
            match parseMembers fuel (c2 :: rest2) with
            | none => none
            | some (ms, r) => some (Json.obj ms, r)
        | [] => none
      else if c = '[' then
        match skipWs rest with
        | c2 :: rest2 =>
          if c2 = ']' then some (Json.arr [], rest2)
          else
            match parseElems fuel (c2 :: rest2) with
            | none => none
            | some (xs, r) => some (Json.arr xs, r)
        | [] => none
      else if c = '"' then
        match parseStringRest rest with
        | none => none
        | some (cs, r) => some (Json.str (String.mk cs), r)
      else if c = 't' then
        match expectLit ['r', 'u', 'e'] rest with
        | none => none
        | some r => some (Json.bool true, r)
      else if c = 'f' then
        match expectLit ['a', 'l', 's', 'e'] rest with
        | none => none
        | some r => some (Json.bool false, r)
      else if c = 'n' then
        match expectLit ['u', 'l', 'l'] rest with
        | none => none
        | some r => some (Json.null, r)
      else if c = '-' || c.isDigit then
        parseNumber (c :: rest)
      else none

/-- Parse the members of a JSON object (after the opening brace, first
member not yet consumed). -/
def parseMembers : Nat → List Char → Option (List (String × Json) × List Char)
  | 0, _ => none
  | fuel + 1, s =>
    match skipWs s with
    | '"' :: rest =>
      match parseStringRest rest with
      | none => none
      | some (key, r1) =>
        match skipWs r1 with
        | ':' :: r2 =>
          match parseVal fuel r2 with
          | none => none
          | some (v, r3) =>
            match skipWs r3 with
            | ',' :: r4 =>
              match parseMembers fuel r4 with
              | none => none
              | some (ms, r5) => some ((String.mk key, v) :: ms, r5)
            | c :: r4 =>
              if c = rbrace then some ([(String.mk key, v)], r4) else none
            | [] => none
        | _ => none
    | _ => none

/-- Parse the elements of a JSON array (after the opening bracket, first
element not yet consumed). -/
def parseElems : Nat → List Char → Option (List Json × List Char)
  | 0, _ => none
  | fuel + 1, s =>
    match parseVal fuel s with
    | none => none
    | some (v, r1) =>
      match skipWs r1 with
      | ',' :: r2 =>
        match parseElems fuel r2 with
        | none => none
        | some (xs, r3) => some (v :: xs, r3)
      | ']' :: r2 => some ([v], r2)
      | _ => none

end

/-- Model of the JavaScript builtin `JSON.parse`: `none` models a thrown
`SyntaxError`. -/
def jsonParse (s : String) : Option Json :=
  match parseVal (2 * s.data.length + 2) s.data with
  | some (v, rest) => if (skipWs rest).isEmpty then some v else none
  | none => none

/-- Escape the characters of a string for JSON output. -/
def escapeChars : List Char → List Char
  | [] => []
  | c :: cs =>
    (if c = '"' then ['\\', '"']
     else if c = '\\' then ['\\', '\\']
     else if c = '\n' then ['\\', 'n']
     else if c = '\t' then ['\\', 't']
     else if c = '\r' then ['\\', 'r']
     else [c]) ++ escapeChars cs

/-- Render a JSON string literal. -/
def strLit (s : String) : String :=
  "\"" ++ String.mk (escapeChars s.data) ++ "\""

mutual

/-- Model of the JavaScript builtin `JSON.stringify` on the values of
`Json`. -/
def jsonStringify : Json → String
  | Json.null => "null"
  | Json.bool b => if b then "true" else "false"
  | Json.num n => toString n
  | Json.str s => strLit s
  | Json.arr xs => "[" ++ stringifyElems xs ++ "]"
  | Json.obj fs => String.mk [lbrace] ++ stringifyFields fs ++ String.mk [rbrace]

/-- Comma-separated rendering of array elements. -/
def stringifyElems : List Json → String
  | [] => ""
  | [x] => jsonStringify x
  | x :: y :: xs => jsonStringify x ++ "," ++ stringifyElems (y :: xs)

/-- Comma-separated rendering of object fields. -/
def stringifyFields : List (String × Json) → String
  | [] => ""
  | [(k, v)] => strLit k ++ ":" ++ jsonStringify v
  | (k, v) :: g :: fs => strLit k ++ ":" ++ jsonStringify v ++ "," ++ stringifyFields (g :: fs)

end

/-- Look up a key in a JSON object's field list (first binding wins, as
property access on a parsed object does). -/
def lookupField (fs : List (String × Json)) (k : String) : Option Json :=
  (fs.find? (fun p => p.1 = k)).map (fun p => p.2)

/-- Extract a string value, as `z.string()` does. -/
def asStr : Json → Option String
  | Json.str s => some s
  | _ => none

/-- Extract a numeric value, as `z.number()` does. -/
def asInt : Json → Option Int
  | Json.num n => some n
  | _ => none

/-- The role literals accepted by `MessageRoleSchema` (schemas.ts). -/
def roleStrings : List String := ["system", "user", "assistant", "tool"]

/-- Embedding of `ToolCallFunctionSchema` (schemas.ts): the function part
of a tool call. -/
structure ToolCallFn where
  name : String
  arguments : String
deriving DecidableEq, Repr

/-- Embedding of `ToolCallSchema` (schemas.ts): a single tool call from
the model.  The `type` field is the literal string "function" and is
checked during validation, so it is not stored. -/
structure ToolCall where
  id : String
  function : ToolCallFn
deriving DecidableEq, Repr

/-- Validation of `ToolCallFunctionSchema` on a JSON value. -/
def toolCallFnOfJson : Json → Option ToolCallFn
  | Json.obj fs => do
    let n ← lookupField fs "name" >>= asStr
    let a ← lookupField fs "arguments" >>= asStr
    pure ⟨n, a⟩
  | _ => none

/-- Validation of `ToolCallSchema` on a JSON value. -/
def toolCallOfJson : Json → Option ToolCall
  | Json.obj fs => do
    let i ← lookupField fs "id" >>= asStr
    let ty ← lookupField fs "type" >>= asStr
    if ty = "function" then do
      let f ← lookupField fs "function" >>= toolCallFnOfJson
      pure (⟨i, f⟩ : ToolCall)
    else none
  | _ => none

/-- Validation of `MessageSchema.partial().passthrough()` (the `delta`
field of `StreamChoiceSchema`): every field is optional, present fields
must have the declared shapes, unknown fields pass through.  Returns the
object's field list. -/
def messageDeltaCheck : Json → Option (List (String × Json))
  | Json.obj fs =>
    let roleOk : Bool := match lookupField fs "role" with
      | none => true
      | some (Json.str r) => roleStrings.contains r
      | some _ => false
    let contentOk : Bool := match lookupField fs "content" with
      | none => true
      | some (Json.str _) => true
      | some (Json.arr _) => true
      | some _ => false
    let toolCallsOk : Bool := match lookupField fs "tool_calls" with
      | none => true
      | some (Json.arr xs) => (xs.mapM toolCallOfJson).isSome
      | some _ => false
    let reasoningOk : Bool := match lookupField fs "reasoning_details" with
      | none => true
      | some (Json.arr xs) =>
        xs.all (fun x => match x with
          | Json.obj g =>
            (lookupField g "type" >>= asStr).isSome &&
            (lookupField g "text" >>= asStr).isSome
          | _ => false)
      | some _ => false
    if roleOk && contentOk && toolCallsOk && reasoningOk then some fs else none
  | _ => none

/-- Embedding of `StreamChoiceSchema` (schemas.ts). -/
structure StreamChoice where
  index : Int
  delta : List (String × Json)
  finishReason : Option String

/-- Embedding of `StreamChunkSchema` (schemas.ts). -/
structure StreamChunk where
  id : String
  object : String
  created : Int
  model : String
  choices : List StreamChoice

/-- Validation of `StreamChoiceSchema` on a JSON value (`finishReason`
must be present, a string or null). -/
def streamChoiceOfJson : Json → Option StreamChoice
  | Json.obj fs => do
    let i ← lookupField fs "index" >>= asInt
    let d ← lookupField fs "delta" >>= messageDeltaCheck
    let fr ← match lookupField fs "finishReason" with
      | some (Json.str s) => some (some s)
      | some Json.null => some (none : Option String)
      | _ => none
    pure ⟨i, d, fr⟩
  | _ => none

/-- Validation of `StreamChunkSchema` on a JSON runtime value, as Zod's
`parse` performs it: the value must be an object with the declared
fields. -/
def streamChunkSafeParse : Json → Option StreamChunk
  | Json.obj fs => do
    let i ← lookupField fs "id" >>= asStr
    let o ← lookupField fs "object" >>= asStr
    let cr ← lookupField fs "created" >>= asInt
    let m ← lookupField fs "model" >>= asStr
    let cs ← match lookupField fs "choices" with
      | some (Json.arr xs) => xs.mapM streamChoiceOfJson
      | _ => none
    pure ⟨i, o, cr, m, cs⟩
  | _ => none

/-- Embedding of the per-record parse step of `MiniMaxClient.streamChat`
(client): the source applies `StreamChunkSchema.parse` directly to the
payload substring of a `data: ` line — a string runtime value — without
first applying `JSON.parse`; a failed parse is caught and the record is
skipped. -/
def streamChunkParse (data : String) : Option StreamChunk :=
  streamChunkSafeParse (Json.str data)

/-- The `data: ` record marker of the streaming protocol, as characters. -/
def dataMarker : List Char := "data: ".data

/-- The terminal sentinel payload of the streaming protocol. -/
def doneSentinel : List Char := "[DONE]".data

/-- Does a complete line start with the `data: ` marker
(`line.startsWith('data: ')` in the source)? -/
def isDataLine (l : List Char) : Bool := dataMarker.isPrefixOf l

/-- Embedding of `buffer.split('\n')` followed by `lines.pop()`: the
complete lines (in order) and the trailing partial line that stays in
the buffer. -/
def splitLines : List Char → List (List Char) × List Char
  | [] => ([], [])
  | c :: rest =>
    if c = '\n' then
      ([] :: (splitLines rest).1, (splitLines rest).2)
    else
      match splitLines rest with
      | ([], buf) => ([], c :: buf)
      | (l :: ls, buf) => ((c :: l) :: ls, buf)

/-- Process the complete lines extracted from the buffer, in order, as
the `for (const line of lines)` loop of `streamChat` does: non-`data: `
lines are ignored, the `[DONE]` sentinel ends the stream (`return`),
other payloads are parsed and yielded, with parse failures skipped.
Returns the chunks yielded by these lines and whether the sentinel was
reached. -/
def processLines : List (List Char) → List StreamChunk × Bool
  | [] => ([], false)
  | l :: ls =>
    if isDataLine l then
      let data := l.drop 6
      if data = doneSentinel then ([], true)
      else
        match streamChunkParse (String.mk data) with
        | some c => ((c :: (processLines ls).1), (processLines ls).2)
        | none => processLines ls
    else processLines ls

/-- Embedding of the fragment loop of `MiniMaxClient.streamChat`: append
the incoming fragment to the buffer, split off the complete lines,
leave the trailing partial line in the buffer, process the lines, and
continue with the next fragment unless the sentinel ended the stream.
When the fragments are exhausted the trailing buffer is discarded, as in
the source. -/
def decodeFrom : List Char → List (List Char) → List StreamChunk
  | _, [] => []
  | buf, f :: fs =>
    let s := splitLines (buf ++ f)
    let p := processLines s.1
    if p.2 then p.1 else p.1 ++ decodeFrom s.2 fs

/-- The chunks yielded by `streamChat` on a given sequence of raw text
fragments (starting from the empty buffer). -/
def streamChatYields (fragments : List (List Char)) : List StreamChunk :=
  decodeFrom [] fragments

/-- The delta content the agent extracts from a yielded chunk
(`chunk.choices[0]?.delta?.content`, used when it is a string). -/
def deltaContentOf (c : StreamChunk) : String :=
  match c.choices.head? with
  | some ch =>
    match lookupField ch.delta "content" with
    | some (Json.str s) => s
    | _ => ""
  | none => ""

/-- Concatenated delta content of a chunk sequence. -/
def concatDeltas (cs : List StreamChunk) : String :=
  String.join (cs.map deltaContentOf)

/-- Embedding of `ToolDefinition` (model.ts): a registered tool.
`safeParse` models `inputSchema.safeParse` (its error value is
`parseResult.error.message`); `execute` models the tool's execution
function, whose error value is the thrown error's `message`. -/
structure ToolDef where
  name : String
  description : String
  safeParse : Json → Except String Json
  execute : Json → Except String Json

/-- Embedding of `ToolResult` (model.ts).  The source stores `result:
null` on failure, modelled by `Json.null`. -/
structure ToolResult where
  toolCallId : String
  toolName : String
  success : Bool
  result : Json
  error : Option String

/-- The errors the agent core throws.  `jsonSyntaxError` models the
`SyntaxError` thrown by the `JSON.parse` builtin on malformed input (it
carries the offending raw text); the other constructors carry the data
of the corresponding `Error` messages thrown by `agent.ts`. -/
inductive AgentError where
  | noResponse : AgentError
  | maxIterations (limit : Nat) : AgentError
  | jsonSyntaxError (raw : String) : AgentError
deriving DecidableEq, Repr

/-- The message text of the thrown errors that `agent.ts` itself
constructs. -/
def agentErrorMessage : AgentError → String
  | AgentError.noResponse => "No response from MiniMax"
  | AgentError.maxIterations limit =>
    "Max tool iterations (" ++ toString limit ++ ") exceeded"
  | AgentError.jsonSyntaxError _ => "Unexpected token in JSON"

/-- Embedding of `this.tools.get(name)` on the registry, modelled as an
association list with unique names (a JavaScript `Map`). -/
def findTool (reg : List ToolDef) (n : String) : Option ToolDef :=
  reg.find? (fun t => t.name = n)

/-- Embedding of `this.tools.set(tool.name, tool)`: replace an existing
entry of the same name in place, otherwise append. -/
def insertTool (reg : List ToolDef) (t : ToolDef) : List ToolDef :=
  if reg.any (fun u => u.name = t.name) then
    reg.map (fun u => if u.name = t.name then t else u)
  else reg ++ [t]

/-- Register a list of tools in order (the constructor's loop and
`addTools`). -/
def registerTools (reg : List ToolDef) (ts : List ToolDef) : List ToolDef :=
  ts.foldl insertTool reg

/-- The `Tool not found` error message of `executeTools`, with the
source's single quotes around the name. -/
def toolNotFoundMsg (n : String) : String :=
  "Tool " ++ String.mk (squote :: n.data ++ [squote]) ++ " not found"

/-- One loop body of `Agent.executeTools` after `JSON.parse` has
succeeded on the call's `arguments`: look the tool up (unknown name
gives a failure result), validate the parsed arguments against the
input schema (failure gives a failure result without invoking the
tool), execute the tool, and catch any thrown error as a failure
result. -/
def execResult (reg : List ToolDef) (tc : ToolCall) (args : Json) : ToolResult :=
  match findTool reg tc.function.name with
  | none =>
    ⟨tc.id, tc.function.name, false, Json.null, some (toolNotFoundMsg tc.function.name)⟩
  | some tool =>
    match tool.safeParse args with
    | Except.error msg =>
      ⟨tc.id, tc.function.name, false, Json.null, some ("Invalid arguments: " ++ msg)⟩
    | Except.ok data =>
      match tool.execute data with
      | Except.ok v => ⟨tc.id, tc.function.name, true, v, none⟩
      | Except.error msg => ⟨tc.id, tc.function.name, false, Json.null, some msg⟩

/-- Embedding of `Agent.executeTools` (agent.ts).  For each call, the
source first evaluates `JSON.parse(func.arguments)` OUTSIDE the
try/catch block: a malformed `arguments` string therefore throws out of
the whole loop and rejects the batch, modelled by `Except.error`.  All
later failure modes are captured per call in the result list. -/
def executeTools (reg : List ToolDef) : List ToolCall → Except AgentError (List ToolResult)
  | [] => Except.ok []
  | tc :: rest =>
    match jsonParse tc.function.arguments with
    | none => Except.error (AgentError.jsonSyntaxError tc.function.arguments)
    | some args =>
      match executeTools reg rest with
      | Except.error e => Except.error e
      | Except.ok rs => Except.ok (execResult reg tc args :: rs)

/-- The result `executeTools` produces for one call when its arguments
string parses (used to state the batch-level theorem). -/
def execResultOf (reg : List ToolDef) (tc : ToolCall) : ToolResult :=
  execResult reg tc ((jsonParse tc.function.arguments).getD Json.null)

/-- Embedding of `MessageRoleSchema`'s roles. -/
inductive Role where
  | system : Role
  | user : Role
  | assistant : Role
  | tool : Role
deriving DecidableEq, Repr

/-- Embedding of the `Message` objects the agent builds and stores
(`schemas.ts` / agent.ts): role, content (a runtime value: string,
array, or absent, absent modelled by `Json.null`), the `tool_calls`
attached to an assistant message of a tool round (empty when absent),
and the `tool_call_id` of a tool-role message. -/
structure Message where
  role : Role
  content : Json
  tool_calls : List ToolCall := []
  tool_call_id : Option String := none

/-- The user message `send` pushes. -/
def userMessage (text : String) : Message :=
  ⟨Role.user, Json.str text, [], none⟩

/-- The plain assistant message `send`/`sendStream` push. -/
def assistantMessage (text : String) : Message :=
  ⟨Role.assistant, Json.str text, [], none⟩

/-- Embedding of `typeof x === 'string' ? x : JSON.stringify(x)`, the
conversion the loop applies to assistant content and tool results. -/
def contentToString : Json → String
  | Json.str s => s
  | v => jsonStringify v

/-- The tool-role message the loop appends for one tool result
(`tool_call_id` plus stringified result content). -/
def toolResultMessage (r : ToolResult) : Message :=
  ⟨Role.tool, Json.str (contentToString r.result), [], some r.toolCallId⟩

/-- The part of a `ChatResponseWithTools` that `sendWithTools` consumes:
the message of each element of `choices` (the loop uses
`choices?.[0].message`), and the response-level `tool_calls` list (an
absent or empty list both take the no-tool-calls branch, modelled as
`[]`). -/
structure ChatResp where
  choices : List Message
  tool_calls : List ToolCall

/-- The remote endpoint, modelled as an oracle mapping the request's
message list to the response (`this.client.chat(request)`). -/
def Oracle : Type := List Message → ChatResp

/-- Embedding of the `while (iterations < this.maxToolIterations)` loop
of `Agent.sendWithTools` (agent.ts), instrumented with the number of
completed tool-execution rounds (second component).  `fuel` is the
number of loop entries still allowed (`limit - iterations`), `rounds`
the number of tool rounds executed so far.  Each pass sends the current
working message list, fails with `noResponse` when the response has no
first choice, executes the requested tools (a thrown `JSON.parse` error
propagates), appends the assistant message with its `tool_calls` and
one tool-role message per result to the working list, and re-enters;
a response without tool calls returns its content as the answer; when
the fuel is exhausted the max-iterations error is thrown. -/
def sendLoop (reg : List ToolDef) (oracle : Oracle) (limit : Nat) :
    Nat → Nat → List Message → Except AgentError String × Nat
  | 0, rounds, _ => (Except.error (AgentError.maxIterations limit), rounds)
  | fuel + 1, rounds, current =>
    let resp := oracle current
    match resp.choices.head? with
    | none => (Except.error AgentError.noResponse, rounds)
    | some assistantMsg =>
      match resp.tool_calls with
      | [] => (Except.ok (contentToString assistantMsg.content), rounds)
      | tc :: tcs =>
        match executeTools reg (tc :: tcs) with
        | Except.error e => (Except.error e, rounds)
        | Except.ok results =>
          sendLoop reg oracle limit fuel (rounds + 1)
            (current ++
              [{ role := Role.assistant, content := assistantMsg.content,
                 tool_calls := tc :: tcs }] ++
              results.map toolResultMessage)

/-- Embedding of `Agent.sendWithTools`: run the loop with the full
iteration budget. -/
def sendWithTools (reg : List ToolDef) (oracle : Oracle) (limit : Nat)
    (messages : List Message) : Except AgentError String × Nat :=
  sendLoop reg oracle limit limit 0 messages

/-- The mutable fields of an `Agent` instance that the claims concern
(agent.ts). -/
structure AgentState where
  systemMessage : String
  friendContext : String
  conversation : List Message
  maxHistoryLength : Nat
  maxToolIterations : Nat

/-- Embedding of the context synthesis of `send`/`sendStream`:
`fullContext = systemMessage`, with the friend-data block appended when
`friendContext` is non-empty. -/
def fullContext (st : AgentState) : String :=
  st.systemMessage ++
    (if st.friendContext ≠ "" then
      "\n\n=== CURRENT FRIEND DATA ===\n" ++ st.friendContext
    else "")

/-- Embedding of the outbound message list `send` builds: the
synthesized system message when `fullContext` is non-empty, then the
stored conversation, then the new user message. -/
def buildMessages (st : AgentState) (text : String) : List Message :=
  (if fullContext st ≠ "" then [⟨Role.system, Json.str (fullContext st), [], none⟩] else [])
    ++ st.conversation ++ [userMessage text]

/-- Embedding of JavaScript `array.slice(-k)` for a natural `k`: the
last `k` elements — except that `slice(-0)` is `slice(0)`, the whole
array. -/
def sliceLast (k : Nat) (xs : List Message) : List Message :=
  if k = 0 then xs else xs.drop (xs.length - k)

/-- The system message `trimHistory` synthesizes and stores when it
trims with non-empty context (`this.systemMessage` plus the friend-data
block). -/
def synthSystemMessage (sys friend : String) : Message :=
  ⟨Role.system,
   Json.str (sys ++ (if friend ≠ "" then "\n\n=== CURRENT FRIEND DATA ===\n" ++ friend else "")),
   [], none⟩

/-- Embedding of `this.systemMessage || this.friendContext` as a
truthiness test: is either string non-empty? -/
def hasSystemContext (sys friend : String) : Bool :=
  sys ≠ "" || friend ≠ ""

/-- The `maxMessages` budget computed by `trimHistory`: one slot is
reserved for the system message when context is present. -/
def trimBudget (sys friend : String) (maxLen : Nat) : Nat :=
  if hasSystemContext sys friend then maxLen - 1 else maxLen

/-- Embedding of `Agent.trimHistory` (agent.ts): with system context the
budget for stored entries is `maxHistoryLength - 1`, otherwise
`maxHistoryLength`; when the conversation exceeds the budget it is
replaced by the synthesized system message (when context is present)
followed by the `slice(-budget)` of the conversation. -/
def trimHistory (sys friend : String) (maxLen : Nat) (conv : List Message) : List Message :=
  if conv.length > trimBudget sys friend maxLen then
    (if hasSystemContext sys friend then [synthSystemMessage sys friend] else []) ++
      sliceLast (trimBudget sys friend maxLen) conv
  else conv

/-- Embedding of `Agent.send` (agent.ts): build the outbound list, run
the tool loop, and only on success push the user message and the final
assistant answer and trim; a thrown error propagates before any history
mutation, leaving the stored conversation untouched. -/
def sendE (reg : List ToolDef) (oracle : Oracle) (st : AgentState) (text : String) :
    AgentState × Except AgentError String :=
  match (sendWithTools reg oracle st.maxToolIterations (buildMessages st text)).1 with
  | Except.error e => (st, Except.error e)
  | Except.ok response =>
    ({ st with
        conversation :=
          trimHistory st.systemMessage st.friendContext st.maxHistoryLength
            (st.conversation ++ [userMessage text, assistantMessage response]) },
     Except.ok response)

/-- The deltas `sendStream` yields: the chunk deltas that are non-empty
strings (`if (typeof delta === 'string' && delta)`). -/
def streamDeltas (chunks : List StreamChunk) : List String :=
  (chunks.map deltaContentOf).filter (fun d => d ≠ "")

/-- Embedding of `Agent.sendStream` (agent.ts).  The source pushes the
user message and an empty-content assistant message into the stored
conversation BEFORE consuming the stream; the outcome of the streaming
transport call is modelled as either an error (thrown before or while
streaming: the two pushed messages remain and no trim runs) or the full
chunk list (each string delta is appended to the pushed assistant
message object in place and yielded, then the history is trimmed). -/
def sendStreamE (streamOutcome : Except AgentError (List StreamChunk))
    (st : AgentState) (text : String) :
    AgentState × Except AgentError (List String) :=
  match streamOutcome with
  | Except.error e =>
    ({ st with conversation := st.conversation ++ [userMessage text, assistantMessage ""] },
     Except.error e)
  | Except.ok chunks =>
    ({ st with
        conversation :=
          trimHistory st.systemMessage st.friendContext st.maxHistoryLength
            (st.conversation ++
              [userMessage text, assistantMessage (String.join (streamDeltas chunks))]) },
     Except.ok (streamDeltas chunks))

/-- The raw options object passed to the `Agent` constructor
(`AgentOptionsWithTools`); `none` models an absent field.  Numbers are
modelled as integers (see `Json`). -/
structure AgentOptionsIn where
  apiKey : Option String := none
  systemMessage : Option String := none
  temperature : Option Int := none
  maxTokens : Option Int := none
  maxHistoryLength : Option Int := none
  maxToolIterations : Option Int := none
  tools : List ToolDef := []

/-- Embedding of `AgentOptionsSchema.safeParse(options).success`
(schemas.ts): every field optional; `temperature` in `[0, 2]`;
`maxTokens`, `maxHistoryLength`, `maxToolIterations` positive. -/
def agentOptionsValid (o : AgentOptionsIn) : Bool :=
  (o.temperature.all fun t => 0 ≤ t && t ≤ 2) &&
  (o.maxTokens.all fun n => 0 < n) &&
  (o.maxHistoryLength.all fun n => 0 < n) &&
  (o.maxToolIterations.all fun n => 0 < n)

/-- Embedding of the `Agent` constructor (agent.ts): run the options
through `AgentOptionsSchema.safeParse`; on validation failure the
validated record is replaced by the EMPTY object (`validation.success ?
validation.data : ` followed by the empty object) so every option falls
back to its default (`systemMessage` empty, `maxHistoryLength` 50,
`maxToolIterations` 10); construction never fails.  Tools are
registered from the raw options regardless of validation.  Returns the
initial agent state and the tool registry. -/
def mkAgent (o : AgentOptionsIn) : AgentState × List ToolDef :=
  let v := if agentOptionsValid o then o else {}
  ({ systemMessage := v.systemMessage.getD ""
     friendContext := ""
     conversation := []
     maxHistoryLength := (v.maxHistoryLength.getD 50).toNat
     maxToolIterations := (v.maxToolIterations.getD 10).toNat },
   registerTools [] o.tools)

/-- First raw fragment of the spec's streaming Scenario C. -/
def scenarioFrag1 : List Char := "data: \x7b\"delta\":\"Hel".data

/-- Second raw fragment of the spec's streaming Scenario C. -/
def scenarioFrag2 : List Char := "lo\"\x7d\ndata: [DONE]\n".data

/-- A tool call whose `arguments` string is not valid JSON. -/
def badToolCall : ToolCall := ⟨"call_1", ⟨"calculator", "not json"⟩⟩

/-- A calculator tool whose schema accepts any parsed object and whose
execution succeeds with a result object. -/
def calcTool : ToolDef :=
  ⟨"calculator", "Perform a calculation",
   fun j => Except.ok j,
   fun _ => Except.ok (Json.obj [("result", Json.num 42)])⟩

/-- A well-formed call to the calculator tool (Scenario B arguments). -/
def calcCall : ToolCall :=
  ⟨"call_1", ⟨"calculator", "\x7b\"expression\":\"6*7\"\x7d"⟩⟩

/-- A model response that always requests one calculator tool call
(Scenario A shape). -/
def respToolCall : ChatResp :=
  ⟨[{ role := Role.assistant, content := Json.null }], [calcCall]⟩

/-- An endpoint that answers every request with a tool-call response. -/
def oracleAlwaysTools : Oracle := fun _ => respToolCall

/-- An agent state with `maxToolIterations = 3` (Scenario A). -/
def stLimit3 : AgentState :=
  ⟨"", "", [], 50, 3⟩

/-- An endpoint that immediately answers with a final (tool-call-free)
assistant message "hi". -/
def oracleFinal : Oracle := fun _ => ⟨[assistantMessage "hi"], []⟩

/-- An agent state with non-empty system text and `maxHistoryLength = 1`. -/
def stTight : AgentState := ⟨"s", "", [], 1, 10⟩

/-- An endpoint that requests one calculator call on the first pass and
answers "42" once a tool-role message is present in the request
(Scenario B shape). -/
def oracleOneRound : Oracle := fun msgs =>
  if msgs.any (fun m => decide (m.role = Role.tool)) then ⟨[assistantMessage "42"], []⟩
  else ⟨[{ role := Role.assistant, content := Json.null }], [calcCall]⟩

/-- An agent state with default-like bounds and empty context. -/
def stPlain : AgentState := ⟨"", "", [], 50, 10⟩

/-- An agent state with non-empty system text and `maxHistoryLength = 2`. -/
def stCtx2 : AgentState := ⟨"s", "", [], 2, 10⟩

/-- A raw options object with a non-positive `maxHistoryLength`. -/
def badOptions : AgentOptionsIn := { maxHistoryLength := some 0 }

/-- Splitting a concatenation: the complete lines of `a ++ b` are the
complete lines of `a` followed by the complete lines of `a`'s trailing
buffer prepended to `b`, and the final buffer comes from the latter. -/
theorem splitLines_append (a b : List Char) :
    splitLines (a ++ b) =
      ((splitLines a).1 ++ (splitLines ((splitLines a).2 ++ b)).1,
       (splitLines ((splitLines a).2 ++ b)).2) := by
  induction a with
  | nil => simp [splitLines]
  | cons c a ih =>
    by_cases hc : c = '\n'
    · subst hc
      simp [splitLines, ih]
    · rcases h1 : splitLines a with ⟨la, ra⟩
      cases la with
      | nil =>
        rcases h2 : splitLines (ra ++ b) with ⟨lx, rx⟩
        cases lx with
        | nil => simp [splitLines, hc, ih, h1, h2]
        | cons l ls => simp [splitLines, hc, ih, h1, h2]
      | cons l0 ls0 => simp [splitLines, hc, ih, h1]

/-- Processing a concatenation of line lists: if the first part reaches
the sentinel its output stands alone, otherwise the outputs are
concatenated. -/
theorem processLines_append (xs ys : List (List Char)) :
    processLines (xs ++ ys) =
      (if (processLines xs).2 then processLines xs
       else ((processLines xs).1 ++ (processLines ys).1, (processLines ys).2)) := by
  induction xs with
  | nil => simp [processLines]
  | cons l ls ih =>
    by_cases hd : isDataLine l
    · by_cases hdone : l.drop 6 = doneSentinel
      · simp [processLines, hd, hdone]
      · by_cases ht : (processLines ls).2
        · rcases hp : streamChunkParse (String.mk (l.drop 6)) with _ | c <;>
            simp [processLines, hd, hdone, hp, ih, ht]
        · rcases hp : streamChunkParse (String.mk (l.drop 6)) with _ | c <;>
            simp [processLines, hd, hdone, hp, ih, ht]
    · simp [processLines, hd, ih]

/-- Two adjacent fragments decode exactly as their concatenation does:
the trailing partial line of the first is completed by the second. -/
theorem decodeFrom_merge (buf f g : List Char) (fs : List (List Char)) :
    decodeFrom buf (f :: g :: fs) = decodeFrom buf ((f ++ g) :: fs) := by
  have hassoc : buf ++ (f ++ g) = (buf ++ f) ++ g := (List.append_assoc buf f g).symm
  simp only [decodeFrom, hassoc, splitLines_append (buf ++ f) g, processLines_append]
  by_cases h1 : (processLines (splitLines (buf ++ f)).1).2
  · simp [h1]
  · by_cases h2 : (processLines (splitLines ((splitLines (buf ++ f)).2 ++ g)).1).2 <;>
      simp [h1, h2, decodeFrom, List.append_assoc]

/-- Decoding a fragment list equals decoding the single concatenated
fragment, from any buffer state. -/
theorem decodeFrom_join (fs : List (List Char)) :
    ∀ (buf f : List Char), decodeFrom buf (f :: fs) = decodeFrom buf [f ++ fs.flatten] := by
  induction fs with
  | nil => intro buf f; simp
  | cons g fs ih =>
    intro buf f
    rw [decodeFrom_merge, ih buf (f ++ g)]
    simp [List.append_assoc]

/-- C1 (code behavior at the spec's Scenario C): fed the two fragments
`data: ` + the split `delta`-payload and the `[DONE]` sentinel, the
stream decoder of `MiniMaxClient.streamChat` yields NO chunk at all —
not one chunk carrying "Hello" as the claim states — because the source
passes the payload string itself to `StreamChunkSchema.parse` (an
object schema, which rejects any string) instead of a `JSON.parse` of
it, so every data record is skipped. -/
theorem c1_scenarioC_yields_no_chunk :
    streamChatYields [scenarioFrag1, scenarioFrag2] = [] := by rfl

/-- C7: stream decoding is split-invariant — decoding any fragment list
yields the same chunk sequence, and hence the same concatenated delta
content, as decoding the unsplit concatenation in one fragment. -/
theorem c7_stream_split_invariance (fragments : List (List Char)) :
    streamChatYields fragments = streamChatYields [fragments.flatten] ∧
    concatDeltas (streamChatYields fragments) =
      concatDeltas (streamChatYields [fragments.flatten]) := by
  have h : streamChatYields fragments = streamChatYields [fragments.flatten] := by
    cases fragments with
    | nil => rfl
    | cons f fs => exact decodeFrom_join fs [] f
  exact ⟨h, by rw [h]⟩

/-- The result of one executed call always carries the call's id and
tool name, whatever branch was taken. -/
theorem execResult_ids (reg : List ToolDef) (tc : ToolCall) (args : Json) :
    (execResult reg tc args).toolCallId = tc.id ∧
    (execResult reg tc args).toolName = tc.function.name := by
  cases hf : findTool reg tc.function.name with
  | none => simp [execResult, hf]
  | some tool =>
    cases hs : tool.safeParse args with
    | error msg => simp [execResult, hf, hs]
    | ok d =>
      cases he : tool.execute d with
      | error m => simp [execResult, hf, hs, he]
      | ok v => simp [execResult, hf, hs, he]

/-- When every call's arguments string parses, `executeTools` succeeds
and maps each call to its per-call result, in order. -/
theorem executeTools_eq_map (reg : List ToolDef) (calls : List ToolCall)
    (h : ∀ tc ∈ calls, (jsonParse tc.function.arguments).isSome) :
    executeTools reg calls = Except.ok (calls.map (execResultOf reg)) := by
  induction calls with
  | nil => simp [executeTools]
  | cons tc rest ih =>
    have htc := h tc (by simp)
    cases hj : jsonParse tc.function.arguments with
    | none => rw [hj] at htc; simp at htc
    | some args =>
      have hrest := ih (fun x hx => h x (by simp [hx]))
      simp [executeTools, hj, hrest, execResultOf]

/-- C2 (counterexample): a batch of one tool-call request whose
`argumentsJson` does not parse makes `executeTools` throw (the
`JSON.parse` call sits OUTSIDE the per-call try/catch), so the batch is
aborted and zero results are returned instead of the one
`success:false` result the claim requires. -/
theorem c2_counterexample :
    executeTools [] [badToolCall] =
      Except.error (AgentError.jsonSyntaxError "not json") := by rfl

/-- C2 (amended): when every request's `argumentsJson` parses,
`executeAll` returns exactly N results in request order without
throwing, and each result is the conversion the claim describes:
unknown tool → `success:false` with the not-found message (tool not
invoked); schema-validation failure → `success:false` with the
validation message (tool not invoked); a thrown execution error →
`success:false` with the error's message; a successful execution →
`success:true` with the tool's value.  A request whose `argumentsJson`
does not parse, however, throws and aborts the whole batch
(`c2_counterexample`). -/
theorem c2_amended (reg : List ToolDef) (calls : List ToolCall)
    (h : ∀ tc ∈ calls, (jsonParse tc.function.arguments).isSome) :
    executeTools reg calls = Except.ok (calls.map (execResultOf reg)) ∧
    (calls.map (execResultOf reg)).length = calls.length ∧
    ∀ tc ∈ calls,
      (execResultOf reg tc).toolCallId = tc.id ∧
      (execResultOf reg tc).toolName = tc.function.name ∧
      (findTool reg tc.function.name = none →
        (execResultOf reg tc).success = false ∧
        (execResultOf reg tc).error = some (toolNotFoundMsg tc.function.name)) ∧
      (∀ tool, findTool reg tc.function.name = some tool →
        (∀ msg,
          tool.safeParse ((jsonParse tc.function.arguments).getD Json.null) =
              Except.error msg →
          (execResultOf reg tc).success = false ∧
          (execResultOf reg tc).error = some ("Invalid arguments: " ++ msg)) ∧
        (∀ d msg,
          tool.safeParse ((jsonParse tc.function.arguments).getD Json.null) =
              Except.ok d →
          tool.execute d = Except.error msg →
          (execResultOf reg tc).success = false ∧
          (execResultOf reg tc).error = some msg) ∧
        (∀ d v,
          tool.safeParse ((jsonParse tc.function.arguments).getD Json.null) =
              Except.ok d →
          tool.execute d = Except.ok v →
          (execResultOf reg tc).success = true ∧
          (execResultOf reg tc).result = v)) := by
  refine ⟨executeTools_eq_map reg calls h, List.length_map _ _, ?_⟩
  intro tc _
  refine ⟨(execResult_ids reg tc _).1, (execResult_ids reg tc _).2, ?_, ?_⟩
  · intro hf
    simp [execResultOf, execResult, hf]
  · intro tool hf
    refine ⟨?_, ?_, ?_⟩
    · intro msg hs
      simp [execResultOf, execResult, hf, hs]
    · intro d msg hs he
      simp [execResultOf, execResult, hf, hs, he]
    · intro d v hs he
      simp [execResultOf, execResult, hf, hs, he]

/-- Witness for `c2_amended` at a concrete batch: one valid calculator
call. -/
theorem c2_amended_witness :
    executeTools [calcTool] [calcCall] =
      Except.ok ([calcCall].map (execResultOf [calcTool])) :=
  (c2_amended [calcTool] [calcCall]
    (by intro tc htc; simp at htc; subst htc; rfl)).1

/-- When every response carries a first choice and a non-empty,
parseable tool-call list, the loop consumes its whole fuel, performs
one tool round per unit of fuel, and throws the max-iterations error. -/
theorem sendLoop_allToolCalls (reg : List ToolDef) (oracle : Oracle)
    (h1 : ∀ msgs, (oracle msgs).choices ≠ [])
    (h2 : ∀ msgs, (oracle msgs).tool_calls ≠ [])
    (h3 : ∀ msgs, ∀ tc ∈ (oracle msgs).tool_calls, (jsonParse tc.function.arguments).isSome)
    (limit : Nat) :
    ∀ (fuel rounds : Nat) (current : List Message),
      sendLoop reg oracle limit fuel rounds current =
        (Except.error (AgentError.maxIterations limit), rounds + fuel) := by
  intro fuel
  induction fuel with
  | zero => intro rounds current; simp [sendLoop]
  | succ n ih =>
    intro rounds current
    cases hch : (oracle current).choices with
    | nil => exact absurd hch (h1 current)
    | cons m ms =>
      cases htc : (oracle current).tool_calls with
      | nil => exact absurd htc (h2 current)
      | cons tc tcs =>
        have hexec : executeTools reg (tc :: tcs) =
            Except.ok ((tc :: tcs).map (execResultOf reg)) := by
          apply executeTools_eq_map
          intro x hx
          exact h3 current x (htc ▸ hx)
        simp only [sendLoop, hch, htc, hexec, List.head?]
        rw [ih (rounds + 1)]
        have : rounds + 1 + n = rounds + (n + 1) := by omega
        rw [this]

/-- C3: if every transport response carries a first choice and a
non-empty tool-call list whose arguments all parse, `send` fails with
the max-iterations error naming the configured limit, after exactly
`maxToolIterations` tool-execution rounds. -/
theorem c3_iteration_bound (reg : List ToolDef) (oracle : Oracle)
    (st : AgentState) (text : String)
    (h1 : ∀ msgs, (oracle msgs).choices ≠ [])
    (h2 : ∀ msgs, (oracle msgs).tool_calls ≠ [])
    (h3 : ∀ msgs, ∀ tc ∈ (oracle msgs).tool_calls,
      (jsonParse tc.function.arguments).isSome) :
    (sendE reg oracle st text).2 =
      Except.error (AgentError.maxIterations st.maxToolIterations) ∧
    (sendWithTools reg oracle st.maxToolIterations (buildMessages st text)).2 =
      st.maxToolIterations ∧
    agentErrorMessage (AgentError.maxIterations st.maxToolIterations) =
      "Max tool iterations (" ++ toString st.maxToolIterations ++ ") exceeded" := by
  have hmain := sendLoop_allToolCalls reg oracle h1 h2 h3 st.maxToolIterations
    st.maxToolIterations 0 (buildMessages st text)
  refine ⟨?_, ?_, rfl⟩
  · simp [sendE, sendWithTools, hmain]
  · simp [sendWithTools, hmain]

/-- Witness for `c3_iteration_bound`: limit 3, a constant tool-call
response. -/
theorem c3_iteration_bound_witness :
    (sendE [calcTool] oracleAlwaysTools stLimit3 "What is 6*7?").2 =
      Except.error (AgentError.maxIterations stLimit3.maxToolIterations) ∧
    (sendWithTools [calcTool] oracleAlwaysTools stLimit3.maxToolIterations
      (buildMessages stLimit3 "What is 6*7?")).2 = stLimit3.maxToolIterations ∧
    agentErrorMessage (AgentError.maxIterations stLimit3.maxToolIterations) =
      "Max tool iterations (" ++ toString stLimit3.maxToolIterations ++ ") exceeded" :=
  c3_iteration_bound [calcTool] oracleAlwaysTools stLimit3 "What is 6*7?"
    (by intro msgs; simp [oracleAlwaysTools, respToolCall])
    (by intro msgs; simp [oracleAlwaysTools, respToolCall])
    (by intro msgs tc htc
        simp [oracleAlwaysTools, respToolCall] at htc
        subst htc; rfl)

/-- C8: when the tool-calling loop exhausts its bound, the error is
surfaced to the caller of `send` and the persisted conversation is
exactly the state before the call: neither the user message nor any
assistant message is committed. -/
theorem c8_failed_turn_leaves_history (reg : List ToolDef) (oracle : Oracle)
    (st : AgentState) (text : String)
    (h1 : ∀ msgs, (oracle msgs).choices ≠ [])
    (h2 : ∀ msgs, (oracle msgs).tool_calls ≠ [])
    (h3 : ∀ msgs, ∀ tc ∈ (oracle msgs).tool_calls,
      (jsonParse tc.function.arguments).isSome) :
    (sendE reg oracle st text).1 = st ∧
    (sendE reg oracle st text).2 =
      Except.error (AgentError.maxIterations st.maxToolIterations) := by
  have hmain := sendLoop_allToolCalls reg oracle h1 h2 h3 st.maxToolIterations
    st.maxToolIterations 0 (buildMessages st text)
  constructor <;> simp [sendE, sendWithTools, hmain]

/-- Witness for `c8_failed_turn_leaves_history` with an agent state that
already holds one conversation entry. -/
theorem c8_failed_turn_leaves_history_witness :
    (sendE [calcTool] oracleAlwaysTools
        ⟨"", "", [assistantMessage "earlier"], 50, 2⟩ "again").1 =
      (⟨"", "", [assistantMessage "earlier"], 50, 2⟩ : AgentState) ∧
    (sendE [calcTool] oracleAlwaysTools
        ⟨"", "", [assistantMessage "earlier"], 50, 2⟩ "again").2 =
      Except.error (AgentError.maxIterations
        (⟨"", "", [assistantMessage "earlier"], 50, 2⟩ : AgentState).maxToolIterations) :=
  c8_failed_turn_leaves_history [calcTool] oracleAlwaysTools
    ⟨"", "", [assistantMessage "earlier"], 50, 2⟩ "again"
    (by intro msgs; simp [oracleAlwaysTools, respToolCall])
    (by intro msgs; simp [oracleAlwaysTools, respToolCall])
    (by intro msgs tc htc
        simp [oracleAlwaysTools, respToolCall] at htc
        subst htc; rfl)

/-- The trim budget never exceeds the configured bound. -/
theorem trimBudget_le (sys friend : String) (maxLen : Nat) :
    trimBudget sys friend maxLen ≤ maxLen := by
  unfold trimBudget
  split <;> omega

/-- A conversation within the budget is left untouched by `trimHistory`. -/
theorem trimHistory_noop (sys friend : String) (maxLen : Nat) (conv : List Message)
    (h : conv.length ≤ trimBudget sys friend maxLen) :
    trimHistory sys friend maxLen conv = conv := by
  unfold trimHistory
  rw [if_neg (by omega)]

/-- After every call of `trimHistory` the stored conversation respects
`maxHistoryLength`, provided the bound is at least 1 without system
context and at least 2 with it. -/
theorem trimHistory_length_le (sys friend : String) (maxLen : Nat) (conv : List Message)
    (hpos : 1 ≤ maxLen)
    (hctx : hasSystemContext sys friend = true → 2 ≤ maxLen) :
    (trimHistory sys friend maxLen conv).length ≤ maxLen := by
  unfold trimHistory
  by_cases hl : conv.length > trimBudget sys friend maxLen
  · rw [if_pos hl]
    cases hb : hasSystemContext sys friend
    · have hbud : trimBudget sys friend maxLen = maxLen := by
        simp [trimBudget, hb]
      have hbne : trimBudget sys friend maxLen ≠ 0 := by omega
      simp only [hb, Bool.false_eq_true, if_false, List.nil_append,
        sliceLast, hbne, if_neg hbne, List.length_drop]
      omega
    · have h2 := hctx hb
      have hbud : trimBudget sys friend maxLen = maxLen - 1 := by
        simp [trimBudget, hb]
      have hbne : trimBudget sys friend maxLen ≠ 0 := by omega
      simp only [hb, if_true, List.singleton_append, List.length_cons,
        sliceLast, if_neg hbne, List.length_drop]
      omega
  · rw [if_neg hl]
    have := trimBudget_le sys friend maxLen
    omega

/-- C4 (counterexample): with non-empty system text and
`maxHistoryLength = 1` (a positive bound), one successful `send` leaves
THREE messages in the persisted history — `maxMessages` is `0`, and
`conversation.slice(-0)` is `slice(0)`, the whole array, to which the
synthesized system message is prepended — so the claimed bound
`history().length <= maxHistoryLength` fails. -/
theorem c4_counterexample :
    (sendE [] oracleFinal stTight "q").2 = Except.ok "hi" ∧
    (sendE [] oracleFinal stTight "q").1.conversation.length = 3 ∧
    ¬ ((sendE [] oracleFinal stTight "q").1.conversation.length ≤
        stTight.maxHistoryLength) := by
  refine ⟨rfl, rfl, ?_⟩
  rw [show (sendE [] oracleFinal stTight "q").1.conversation.length = 3 from rfl]
  decide

/-- C4 (amended): for every successful `send`, the persisted history
respects `history().length <= maxHistoryLength`, provided
`maxHistoryLength` is positive and, when the system text or context
block is non-empty, at least 2 (the counterexample `c4_counterexample`
shows the bound fails at `maxHistoryLength = 1` with context); when
trimming fires with context the synthesized system message is placed at
index 0 ahead of the most recent entries. -/
theorem c4_amended_history_bound (reg : List ToolDef) (oracle : Oracle)
    (st : AgentState) (text : String) (r : String)
    (hpos : 1 ≤ st.maxHistoryLength)
    (hctx : hasSystemContext st.systemMessage st.friendContext = true →
      2 ≤ st.maxHistoryLength)
    (hok : (sendE reg oracle st text).2 = Except.ok r) :
    (sendE reg oracle st text).1.conversation.length ≤ st.maxHistoryLength ∧
    (hasSystemContext st.systemMessage st.friendContext = true →
      ∀ conv : List Message,
        conv.length > trimBudget st.systemMessage st.friendContext st.maxHistoryLength →
        trimHistory st.systemMessage st.friendContext st.maxHistoryLength conv =
          synthSystemMessage st.systemMessage st.friendContext ::
            sliceLast (trimBudget st.systemMessage st.friendContext st.maxHistoryLength) conv) := by
  constructor
  · cases hres : (sendWithTools reg oracle st.maxToolIterations (buildMessages st text)).1 with
    | error e => simp [sendE, hres] at hok
    | ok resp =>
      simp only [sendE, hres]
      exact trimHistory_length_le _ _ _ _ hpos hctx
  · intro hb conv hover
    unfold trimHistory
    rw [if_pos hover]
    simp [hb]

/-- Witness for `c4_amended_history_bound`: system text present,
`maxHistoryLength = 2`. -/
theorem c4_amended_history_bound_witness :
    (sendE [] oracleFinal ⟨"s", "", [], 2, 10⟩ "q").1.conversation.length ≤
      (⟨"s", "", [], 2, 10⟩ : AgentState).maxHistoryLength ∧
    (hasSystemContext "s" "" = true →
      ∀ conv : List Message,
        conv.length > trimBudget "s" "" 2 →
        trimHistory "s" "" 2 conv =
          synthSystemMessage "s" "" :: sliceLast (trimBudget "s" "" 2) conv) :=
  c4_amended_history_bound [] oracleFinal ⟨"s", "", [], 2, 10⟩ "q" "hi"
    (by decide) (by intro h; decide) rfl

/-- C5: a successful `send` whose loop executed at least one tool round
commits exactly the original user message and the final assistant
answer to the persisted history (here under the condition that the
result stays within the trim budget, so trimming does not also fire),
and neither committed message is a tool-role or tool-call-carrying
message: the loop's working list is never persisted. -/
theorem c5_ephemeral_scaffolding (reg : List ToolDef) (oracle : Oracle)
    (st : AgentState) (text : String) (r : String)
    (hok : (sendWithTools reg oracle st.maxToolIterations (buildMessages st text)).1 =
      Except.ok r)
    (_hrounds : 1 ≤ (sendWithTools reg oracle st.maxToolIterations (buildMessages st text)).2)
    (hlen : st.conversation.length + 2 ≤
      trimBudget st.systemMessage st.friendContext st.maxHistoryLength) :
    (sendE reg oracle st text).1.conversation =
      st.conversation ++ [userMessage text, assistantMessage r] ∧
    (sendE reg oracle st text).2 = Except.ok r ∧
    (∀ m ∈ [userMessage text, assistantMessage r],
      m.role ≠ Role.tool ∧ m.tool_calls = []) := by
  have hnoop : trimHistory st.systemMessage st.friendContext st.maxHistoryLength
      (st.conversation ++ [userMessage text, assistantMessage r]) =
      st.conversation ++ [userMessage text, assistantMessage r] := by
    apply trimHistory_noop
    simpa using hlen
  refine ⟨?_, ?_, ?_⟩
  · simp [sendE, hok, hnoop]
  · simp [sendE, hok]
  · intro m hm
    simp only [List.mem_cons, List.not_mem_nil, or_false] at hm
    rcases hm with rfl | rfl
    · exact ⟨by simp [userMessage], rfl⟩
    · exact ⟨by simp [assistantMessage], rfl⟩

/-- Witness for `c5_ephemeral_scaffolding`: one tool round, then the
final answer "42". -/
theorem c5_ephemeral_scaffolding_witness :
    (sendE [calcTool] oracleOneRound stPlain "What is 6*7?").1.conversation =
      stPlain.conversation ++ [userMessage "What is 6*7?", assistantMessage "42"] ∧
    (sendE [calcTool] oracleOneRound stPlain "What is 6*7?").2 = Except.ok "42" ∧
    (∀ m ∈ [userMessage "What is 6*7?", assistantMessage "42"],
      m.role ≠ Role.tool ∧ m.tool_calls = []) :=
  c5_ephemeral_scaffolding [calcTool] oracleOneRound stPlain "What is 6*7?" "42"
    rfl
    (by rw [show (sendWithTools [calcTool] oracleOneRound stPlain.maxToolIterations
          (buildMessages stPlain "What is 6*7?")).2 = 1 from rfl])
    (by decide)

/-- A concatenation with a non-empty left part is non-empty. -/
theorem append_ne_empty_left (a b : String) (h : a ≠ "") : a ++ b ≠ "" := by
  intro hc
  have hd : (a ++ b).data = ([] : List Char) := by rw [hc]
  rw [String.data_append] at hd
  rcases List.append_eq_nil.mp hd with ⟨h1, _⟩
  exact h (by apply String.ext; simpa using h1)

/-- A concatenation with a non-empty right part is non-empty. -/
theorem append_ne_empty_right (a b : String) (h : b ≠ "") : a ++ b ≠ "" := by
  intro hc
  have hd : (a ++ b).data = ([] : List Char) := by rw [hc]
  rw [String.data_append] at hd
  rcases List.append_eq_nil.mp hd with ⟨_, h2⟩
  exact h (by apply String.ext; simpa using h2)

/-- When system text or context block is non-empty, the synthesized
outbound context string is non-empty, so `send` prepends a system
message. -/
theorem fullContext_ne_empty (st : AgentState)
    (h : st.systemMessage ≠ "" ∨ st.friendContext ≠ "") :
    fullContext st ≠ "" := by
  unfold fullContext
  rcases h with h | h
  · exact append_ne_empty_left _ _ h
  · rw [if_pos h]
    exact append_ne_empty_right _ _
      (append_ne_empty_left _ _ (by decide))

/-- C9 (counterexample): after one successful `send` on a state with
non-empty system text and `maxHistoryLength = 2`, trimming stores a
system-role message at index 0 of the persisted history, and the next
turn's outbound message list carries TWO system-role messages — the
freshly synthesized one and the stored copy — contradicting the claim
that stored history never contains a system-role message. -/
theorem c9_counterexample :
    ((sendE [] oracleFinal stCtx2 "q").1.conversation.map Message.role) =
      [Role.system, Role.assistant] ∧
    ((buildMessages (sendE [] oracleFinal stCtx2 "q").1 "again").map Message.role) =
      [Role.system, Role.system, Role.assistant, Role.user] :=
  ⟨rfl, rfl⟩

/-- C9 (amended): the synthesized system message is recomputed before
each turn and `send` itself never appends one, but `trimHistory` stores
a copy at index 0 whenever it trims with non-empty system text or
context block; after such a trim the stored history contains a
system-role message, and the next outbound message list contains at
least two system-role entries. -/
theorem c9_amended (st : AgentState) (conv : List Message) (u : String)
    (hctx : st.systemMessage ≠ "" ∨ st.friendContext ≠ "")
    (hover : trimBudget st.systemMessage st.friendContext st.maxHistoryLength <
      conv.length) :
    (trimHistory st.systemMessage st.friendContext st.maxHistoryLength conv).head? =
      some (synthSystemMessage st.systemMessage st.friendContext) ∧
    2 ≤ ((buildMessages
        { st with conversation :=
            trimHistory st.systemMessage st.friendContext st.maxHistoryLength conv } u).map
          Message.role).count Role.system := by
  have hb : hasSystemContext st.systemMessage st.friendContext = true := by
    unfold hasSystemContext
    rcases hctx with h | h <;> simp [h]
  have htrim : trimHistory st.systemMessage st.friendContext st.maxHistoryLength conv =
      synthSystemMessage st.systemMessage st.friendContext ::
        sliceLast (trimBudget st.systemMessage st.friendContext st.maxHistoryLength) conv := by
    unfold trimHistory
    rw [if_pos hover]
    simp [hb]
  have hfc : fullContext
      { st with conversation :=
          trimHistory st.systemMessage st.friendContext st.maxHistoryLength conv } ≠ "" :=
    fullContext_ne_empty _ hctx
  constructor
  · rw [htrim]; rfl
  · unfold buildMessages
    rw [if_pos hfc]
    show 2 ≤ (((⟨Role.system, Json.str _, [], none⟩ : Message) ::
        (trimHistory st.systemMessage st.friendContext st.maxHistoryLength conv ++
          [userMessage u])).map Message.role).count Role.system
    rw [htrim]
    simp only [List.map_cons, List.map_append, synthSystemMessage, userMessage,
      List.cons_append, List.count_cons_self]
    omega

/-- Witness for `c9_amended` at a concrete over-budget conversation. -/
theorem c9_amended_witness :
    (trimHistory stCtx2.systemMessage stCtx2.friendContext stCtx2.maxHistoryLength
        [userMessage "q", assistantMessage "hi"]).head? =
      some (synthSystemMessage stCtx2.systemMessage stCtx2.friendContext) ∧
    2 ≤ ((buildMessages
        { stCtx2 with conversation :=
            (trimHistory stCtx2.systemMessage stCtx2.friendContext stCtx2.maxHistoryLength
              [userMessage "q", assistantMessage "hi"]) } "again").map
          Message.role).count Role.system :=
  c9_amended stCtx2 [userMessage "q", assistantMessage "hi"] "again"
    (Or.inl (by decide)) (by decide)

/-- C6 (counterexample): constructing an `Agent` with the invalid option
`maxHistoryLength = 0` does NOT fail — `safeParse` fails, the validated
record is silently replaced by the empty object, and the constructed
agent carries the defaults (`maxHistoryLength` 50, `maxToolIterations`
10, empty system message) — contradicting the claim that invalid values
cause construction to fail rather than being replaced by defaults. -/
theorem c6_counterexample :
    agentOptionsValid badOptions = false ∧
    (mkAgent badOptions).1.maxHistoryLength = 50 ∧
    (mkAgent badOptions).1.maxToolIterations = 10 ∧
    (mkAgent badOptions).1.systemMessage = "" :=
  ⟨rfl, rfl, rfl, rfl⟩

/-- C6 (amended): the constructor validates the options once with
`AgentOptionsSchema.safeParse`, but on validation failure it still
succeeds, silently discarding ALL validated options in favour of the
defaults (empty system message, `maxHistoryLength` 50,
`maxToolIterations` 10, empty fresh conversation), while tools are
registered from the raw options regardless. -/
theorem c6_amended (o : AgentOptionsIn) (h : agentOptionsValid o = false) :
    (mkAgent o).1.systemMessage = "" ∧
    (mkAgent o).1.friendContext = "" ∧
    (mkAgent o).1.conversation = [] ∧
    (mkAgent o).1.maxHistoryLength = 50 ∧
    (mkAgent o).1.maxToolIterations = 10 ∧
    (mkAgent o).2 = registerTools [] o.tools := by
  simp [mkAgent, h]

/-- Witness for `c6_amended` at the concrete invalid options. -/
theorem c6_amended_witness :
    (mkAgent badOptions).1.systemMessage = "" ∧
    (mkAgent badOptions).1.friendContext = "" ∧
    (mkAgent badOptions).1.conversation = [] ∧
    (mkAgent badOptions).1.maxHistoryLength = 50 ∧
    (mkAgent badOptions).1.maxToolIterations = 10 ∧
    (mkAgent badOptions).2 = registerTools [] badOptions.tools :=
  c6_amended badOptions rfl

/-- C10: `sendStream` pushes the user message and an empty-content
assistant message into the persisted history before any stream data is
consumed, so when the streaming transport call fails the error is
surfaced with exactly those two messages left in the history (no trim
runs on this path), unlike the non-streaming `send`, which leaves
history unchanged on error. -/
theorem c10_sendStream_pushes_before_failure (e : AgentError) (st : AgentState)
    (text : String) :
    (sendStreamE (Except.error e) st text).1.conversation =
      st.conversation ++ [userMessage text, assistantMessage ""] ∧
    (sendStreamE (Except.error e) st text).2 = Except.error e :=
  ⟨rfl, rfl⟩
